import Mathlib

/-
Verification development for the kes-rs scripting engine.

The repository contains several historical iterations of the engine.  The
files under src/ mix two of them:

* the "block" iteration: src/instruction.rs, src/context.rs and the runtime
  value semantics (a stack of blocks, string-keyed variables, synchronous
  builtin calls).  Embedded below in namespace `Old`.
* the mature iteration: src/compiler.rs, src/program.rs, src/formatter.rs,
  src/operator.rs, src/interner.rs (interned symbols, `Print {newline, wait}`,
  forward-patched jumps).  Embedded below in namespaces `Mat` and `Fmt`.

Machine integers (`u32`) are carried as `Nat`; where wrap-around matters the
operation is reduced `% 2 ^ 32` (release-profile wrapping).  Rust panics
(map index on a missing key, division by zero, `unwrap` on `None`,
out-of-bounds indexing) are modelled as an explicit `panic` outcome, kept
distinct from values returned through `RuntimeResult`.
-/

namespace Kes

namespace Old

/-- Runtime value of the block iteration (`Value<'c>`: `Int(u32)` or a
string; the bump-allocated `&'c str` is carried as `String`). -/
inductive Value where
  | int (n : Nat)
  | str (s : String)
deriving DecidableEq, Repr

/-- `Value::into_bool`: `Int(0)` and the empty string are false. -/
def Value.into_bool : Value → Bool
  | .int i => i != 0
  | .str s => s != ""

/-- `Value::type_name`. -/
def Value.type_name : Value → String
  | .int _ => "int"
  | .str _ => "str"

/-- The operator enum of the block iteration, as matched in
`Context::run_operator` (src/context.rs). -/
inductive Operator where
  | equal | notEqual | greater | less | greaterOrEqual | lessOrEqual
  | and | or | xor | not
  | add | sub | mul | div | rem
deriving DecidableEq, Repr

/-- `Instruction<'s>` of the block iteration (src/instruction.rs). -/
inductive Instruction where
  | nop
  | exit
  | pop
  | popExternal (n : Nat)
  | duplicate
  | conditional
  | loadInt (n : Nat)
  | loadStr (s : String)
  | loadVar (s : String)
  | storeVar (s : String)
  | loadBuiltin (s : String)
  | callBuiltin (s : String)
  | print
  | printLine
  | printWait
  | operator (op : Operator)
  | goto (p : Nat)
  | gotoIfNot (p : Nat)
  | startBlock
  | endBlock
deriving DecidableEq, Repr

/-- `InstructionWithDebug<'s>` (src/instruction.rs). -/
structure InstructionWithDebug where
  inst : Instruction
  line_no : Nat
deriving DecidableEq, Repr

/-- `InterruptState` (src/error.rs). -/
inductive InterruptState where
  | builtin (name : String)
  | printWait
deriving DecidableEq, Repr

/-- `RuntimeError` (src/error.rs). -/
inductive RuntimeError where
  | executionError (msg : String) (line : Nat)
  | typeError (ty : String) (line : Nat)
  | interrupted (st : InterruptState)
deriving DecidableEq, Repr

/-- The VM state `Context<'c>` (src/context.rs).  `stack` is the stack of
blocks; the list HEAD is the top block (Rust `Vec::last`).  Inside a block
the list is in `Vec` order: the front is the bottom, `push` appends at the
end, `pop` removes the last element.  `variables` is the `AHashMap`,
modelled as an association list (insertion replaces the existing key). -/
structure Ctx where
  instructions : List InstructionWithDebug
  stack : List (List Value)
  vars : List (String × Value)
  cursor : Nat
deriving DecidableEq, Repr

/-- Association-list lookup for the variables map. -/
def lookupVar : List (String × Value) → String → Option Value
  | [], _ => none
  | (k0, v0) :: rest, k => if k0 = k then some v0 else lookupVar rest k

/-- Association-list insert for the variables map (replace or append, as
`HashMap::insert` overwrites). -/
def insertVar : List (String × Value) → String → Value → List (String × Value)
  | [], k, v => [(k, v)]
  | (k0, v0) :: rest, k, v =>
      if k0 = k then (k, v) :: rest else (k0, v0) :: insertVar rest k v

/-- `Context::current_instruction_line_no` looks up
`instructions[cursor].line_no`; `none` when the index is out of bounds
(where the Rust indexing would panic). -/
def Ctx.lineNo (c : Ctx) : Option Nat :=
  (c.instructions.get? c.cursor).map (·.line_no)

/-- Result of `Context::pop_ret` (and friends): a popped value with the
updated context, a `RuntimeError`, or a panic. -/
inductive PopRes where
  | ok (v : Value) (c : Ctx)
  | err (e : RuntimeError)
  | panic
deriving DecidableEq, Repr

/-- `Context::pop_ret`: `self.pop().ok_or(self.make_err("인자가 부족합니다"))`.
`pop` unwraps `stack.last_mut()` (panic when there is no block) and
`make_err` eagerly indexes `instructions[cursor]` (panic when the cursor is
out of bounds); an empty current block yields the `ExecutionError`. -/
def Ctx.pop_ret (c : Ctx) : PopRes :=
  match c.stack with
  | [] => .panic
  | b :: rest =>
    match c.lineNo with
    | none => .panic
    | some line =>
      match b.getLast? with
      | some v => .ok v { c with stack := b.dropLast :: rest }
      | none => .err (.executionError "인자가 부족합니다" line)

/-- Result of `Context::pop_into_ret::<u32>`. -/
inductive PopNatRes where
  | ok (n : Nat) (c : Ctx)
  | err (e : RuntimeError)
  | panic
deriving DecidableEq, Repr

/-- `Context::pop_into_ret::<u32>`: `pop_ret` then `try_into`, mapping the
conversion failure to `TypeError(type_name, line)`. -/
def Ctx.pop_into_ret_u32 (c : Ctx) : PopNatRes :=
  match c.pop_ret with
  | .panic => .panic
  | .err e => .err e
  | .ok v c2 =>
    match v with
    | .int n => .ok n c2
    | .str _ =>
      match c2.lineNo with
      | some line => .err (.typeError "str" line)
      | none => .panic

/-- `Context::pop_bool` = `pop_into::<bool>`: `pop().unwrap()` (panic on an
empty block or no block), then the infallible bool conversion. -/
def Ctx.pop_bool (c : Ctx) : Option (Bool × Ctx) :=
  match c.stack with
  | [] => none
  | b :: rest =>
    match b.getLast? with
    | some v => some (v.into_bool, { c with stack := b.dropLast :: rest })
    | none => none

/-- Outcome of one instruction: the updated context, a `RuntimeError`, or a
panic. -/
inductive Outcome where
  | ok (c : Ctx)
  | err (e : RuntimeError)
  | panic
deriving DecidableEq, Repr

/-- Whether the outcome is a returned `RuntimeError`. -/
def Outcome.isErr : Outcome → Bool
  | .err _ => true
  | _ => false

/-- `self.cursor += 1` at the end of `run_instruction`. -/
def advance (c : Ctx) : Ctx := { c with cursor := c.cursor + 1 }

/-- Apply the final cursor increment to a successful outcome only (the `?`
operator propagates errors before the increment is reached). -/
def advanceOut : Outcome → Outcome
  | .ok c => .ok (advance c)
  | o => o

/-- `Context::push` onto the current block; panic when no block exists
(`current_block().unwrap()`). -/
def pushV (c : Ctx) (v : Value) : Outcome :=
  match c.stack with
  | [] => .panic
  | b :: rest => .ok { c with stack := (b ++ [v]) :: rest }

/-- `Context::push` followed by the cursor increment, for the
`run_instruction` arms that fall through to `self.cursor += 1`. -/
def pushOut (c : Ctx) (v : Value) : Outcome :=
  advanceOut (pushV c v)

/-- Derived `Ord` on `Value<'c>`: the `Int` variant precedes `Str`; like
variants compare componentwise (Rust `str` comparison is bytewise, which
for UTF-8 equals code-point order as used by `compare` on `String`). -/
def Value.cmp : Value → Value → Ordering
  | .int a, .int b => compare a b
  | .int _, .str _ => .lt
  | .str _, .int _ => .gt
  | .str a, .str b => compare a b

/-- `binop_raw_bool!`: pop rhs, pop lhs, push `1` or `0` from the raw
comparison. -/
def binRawBool (c : Ctx) (f : Value → Value → Bool) : Outcome :=
  match c.pop_ret with
  | .panic => .panic
  | .err e => .err e
  | .ok rhs c1 =>
    match c1.pop_ret with
    | .panic => .panic
    | .err e => .err e
    | .ok lhs c2 => pushV c2 (.int (if f lhs rhs then 1 else 0))

/-- `binop_bool!`: pop rhs, pop lhs, project both to truthiness, push `1`
or `0`. -/
def binBool (c : Ctx) (f : Bool → Bool → Bool) : Outcome :=
  match c.pop_ret with
  | .panic => .panic
  | .err e => .err e
  | .ok rhs c1 =>
    match c1.pop_ret with
    | .panic => .panic
    | .err e => .err e
    | .ok lhs c2 => pushV c2 (.int (if f lhs.into_bool rhs.into_bool then 1 else 0))

/-- `binop!`: pop rhs and lhs as `u32` (TypeError on a string), then push
`f lhs rhs`; `f` returns `none` where the Rust arithmetic panics. -/
def binNat (c : Ctx) (f : Nat → Nat → Option Nat) : Outcome :=
  match c.pop_into_ret_u32 with
  | .panic => .panic
  | .err e => .err e
  | .ok rhs c1 =>
    match c1.pop_into_ret_u32 with
    | .panic => .panic
    | .err e => .err e
    | .ok lhs c2 =>
      match f lhs rhs with
      | none => .panic
      | some n => pushV c2 (.int n)

/-- `2 ^ 32`, the wrap modulus for `u32` arithmetic. -/
def u32Mod : Nat := 4294967296

/-- `Context::run_operator` (src/context.rs). -/
def Ctx.run_operator (c : Ctx) (op : Operator) : Outcome :=
  match op with
  | .equal => binRawBool c (fun l r => l = r)
  | .notEqual => binRawBool c (fun l r => l ≠ r)
  | .greater => binRawBool c (fun l r => l.cmp r = .gt)
  | .less => binRawBool c (fun l r => l.cmp r = .lt)
  | .greaterOrEqual => binRawBool c (fun l r => l.cmp r ≠ .lt)
  | .lessOrEqual => binRawBool c (fun l r => l.cmp r ≠ .gt)
  | .and => binBool c (fun l r => l && r)
  | .or => binBool c (fun l r => l || r)
  | .xor => binBool c (fun l r => l.xor r)
  | .not =>
    match c.pop_ret with
    | .panic => .panic
    | .err e => .err e
    | .ok v c1 => pushV c1 (.int (if !v.into_bool then 1 else 0))
  | .add =>
    match c.pop_ret with
    | .panic => .panic
    | .err e => .err e
    | .ok rhs c1 =>
      match c1.pop_ret with
      | .panic => .panic
      | .err e => .err e
      | .ok lhs c2 =>
        pushV c2 (match lhs, rhs with
          | .int l, .int r => .int ((l + r) % u32Mod)
          | .int l, .str r => .str (toString l ++ r)
          | .str l, .int r => .str (l ++ toString r)
          | .str l, .str r => .str (l ++ r))
  | .sub => binNat c (fun l r => some ((l + u32Mod - r % u32Mod) % u32Mod))
  | .mul => binNat c (fun l r => some ((l * r) % u32Mod))
  | .div => binNat c (fun l r => if r = 0 then none else some (l / r))
  | .rem => binNat c (fun l r => if r = 0 then none else some (l % r))

/-- Calls the VM makes on the host `Builtin` while executing one
instruction, in order. -/
inductive Event where
  | print (v : Value)
  | newLine
  | wait
  | runCall (name : String)
  | loadCall (name : String)
deriving DecidableEq, Repr

/-- The host `Builtin` collaborator, as `Context::run_instruction` consumes
it: `run(name, ctx)` may mutate the context and returns an optional value;
`load(name)` returns a value. -/
structure Builtin where
  runB : String → Ctx → Ctx × Option Value
  loadB : String → Value

/-- `Context::flush_print`: drain the current block in insertion order into
`builtin.print`; panic when there is no block. -/
def Ctx.flush_print (c : Ctx) : Option (Ctx × List Event) :=
  match c.stack with
  | [] => none
  | b :: rest => some ({ c with stack := ([] : List Value) :: rest }, b.map Event.print)

/-- The `Print` family shared tail: flush, then the given extra builtin
calls, then the cursor increment. -/
def flushOut (c : Ctx) (extra : List Event) : Outcome × List Event :=
  match c.flush_print with
  | none => (.panic, [])
  | some (c1, evs) => (.ok (advance c1), evs ++ extra)

/-- `Context::run_instruction` (src/context.rs). -/
def run_instruction (B : Builtin) (c : Ctx) (inst : Instruction) : Outcome × List Event :=
  match inst with
  | .exit => (.ok { c with cursor := c.instructions.length }, [])
  | .loadInt n => (pushOut c (.int n), [])
  | .loadStr s => (pushOut c (.str s), [])
  | .loadVar name =>
    match lookupVar c.vars name with
    | none => (.panic, [])
    | some v => (pushOut c v, [])
  | .storeVar name =>
    match c.pop_ret with
    | .panic => (.panic, [])
    | .err e => (.err e, [])
    | .ok v c1 => (.ok (advance { c1 with vars := insertVar c1.vars name v }), [])
  | .loadBuiltin name => (pushOut c (B.loadB name), [.loadCall name])
  | .callBuiltin name =>
    let r := B.runB name c
    let c2 := { r.1 with stack := r.1.stack.tail }
    match r.2 with
    | none => (.ok (advance c2), [.runCall name])
    | some v => (pushOut c2 v, [.runCall name])
  | .operator op => (advanceOut (c.run_operator op), [])
  | .goto p => (.ok { c with cursor := p }, [])
  | .gotoIfNot p =>
    match c.pop_ret with
    | .panic => (.panic, [])
    | .err e => (.err e, [])
    | .ok v c1 =>
      if v.into_bool then (.ok (advance c1), [])
      else (.ok { c1 with cursor := p }, [])
  | .startBlock => (.ok (advance { c with stack := ([] : List Value) :: c.stack }), [])
  | .endBlock => (.ok (advance { c with stack := c.stack.tail }), [])
  | .print => flushOut c []
  | .printLine => flushOut c [.newLine]
  | .printWait => flushOut c [.newLine, .wait]
  | .duplicate =>
    match c.lineNo with
    | none => (.panic, [])
    | some line =>
      match c.stack with
      | [] => (.panic, [])
      | b :: rest =>
        match b.getLast? with
        | none => (.err (.executionError "인자가 없습니다" line), [])
        | some v => (.ok (advance { c with stack := (b ++ [v]) :: rest }), [])
  | .nop => (.ok (advance c), [])
  | .pop =>
    match c.stack with
    | [] => (.panic, [])
    | b :: rest => (.ok (advance { c with stack := b.dropLast :: rest }), [])
  | .popExternal num =>
    match c.stack with
    | [] => (.panic, [])
    | b0 :: rest =>
      if num ≠ 0 ∧ b0.length < num then (.panic, [])
      else
        let start := if num = 0 then 0 else b0.length - num
        let buf := b0.drop start
        if 20 < buf.length then (.panic, [])
        else
          match rest with
          | [] => (.panic, [])
          | b1 :: rest2 =>
            (.ok (advance { c with stack := b0.take start :: (b1 ++ buf) :: rest2 }), [])
  | .conditional =>
    match c.pop_ret with
    | .panic => (.panic, [])
    | .err e => (.err e, [])
    | .ok rhs c1 =>
      match c1.pop_ret with
      | .panic => (.panic, [])
      | .err e => (.err e, [])
      | .ok lhs c2 =>
        match c2.pop_bool with
        | none => (.panic, [])
        | some (cond, c3) => (pushOut c3 (if cond then lhs else rhs), [])

/-- The classification of the `Print` family used by the claims: a newline
flag and a wait flag. `Print` has neither, `PrintLine` has the newline,
`PrintWait` has both. -/
def printFlags : Instruction → Option (Bool × Bool)
  | .print => some (false, false)
  | .printLine => some (true, false)
  | .printWait => some (true, true)
  | _ => none

/-- Whether the operator is one of the boolean-coerced binary operators,
with its boolean function. -/
def boolOpFn : Operator → Option (Bool → Bool → Bool)
  | .and => some (fun l r => l && r)
  | .or => some (fun l r => l || r)
  | .xor => some (fun l r => l.xor r)
  | _ => none

end Old

end Kes

namespace Kes.Old

/-- The host builtin used for concrete executions: `run` leaves the context
unchanged and returns no value, `load` returns `Int(0)` (`DummyBuiltin` in
src/builtin.rs). -/
def dummyBuiltin : Builtin := { runB := fun _ c => (c, none), loadB := fun _ => .int 0 }

/-- Popping from a block presented as `blk ++ [y]` yields `y` and leaves
`blk`. -/
theorem pop_ret_concat (c : Ctx) (blk : List Value) (y : Value)
    (rest : List (List Value)) (line : Nat)
    (hstack : c.stack = (blk ++ [y]) :: rest) (hline : c.lineNo = some line) :
    c.pop_ret = .ok y { c with stack := blk :: rest } := by
  simp [Ctx.pop_ret, hstack, hline]

/-- `binop_bool!` on a block ending in the two operands: both are popped,
projected to truthiness, and the boolean result is pushed as `1` or `0`. -/
theorem binBool_spec (c : Ctx) (f : Bool → Bool → Bool) (blk : List Value) (x y : Value)
    (rest : List (List Value)) (line : Nat)
    (hstack : c.stack = (blk ++ [x, y]) :: rest) (hline : c.lineNo = some line) :
    binBool c f =
      .ok { c with
        stack := (blk ++ [.int (if f x.into_bool y.into_bool then 1 else 0)]) :: rest } := by
  have hxy : blk ++ [x, y] = (blk ++ [x]) ++ [y] := by simp
  rw [hxy] at hstack
  have h1 := pop_ret_concat c (blk ++ [x]) y rest line hstack hline
  have h2 := pop_ret_concat { c with stack := (blk ++ [x]) :: rest } blk x rest line rfl hline
  simp [binBool, h1, h2, pushV]

/-- Context executing `PrintWait` with two values in the current block and
one enclosing block. -/
def printCtx : Ctx :=
  { instructions := [⟨.printWait, 1⟩], stack := [[.int 3, .str "a"], [.int 7]],
    vars := [], cursor := 0 }

/-- Context executing `Operator(And)` over `Int(1)` and `Int(2)`. -/
def andCtx : Ctx :=
  { instructions := [⟨.operator .and, 4⟩], stack := [[.int 1, .int 2]], vars := [], cursor := 0 }

/-- Context executing `LoadVar("x")` with an empty variables table. -/
def loadVarCtx : Ctx :=
  { instructions := [⟨.loadVar "x", 1⟩], stack := [[]], vars := [], cursor := 0 }

/-- Context executing `LoadVar("x")` with `x` bound to `Int(7)`. -/
def loadVarCtx2 : Ctx :=
  { instructions := [⟨.loadVar "x", 1⟩], stack := [[]], vars := [("x", .int 7)], cursor := 0 }

/-- Context executing `Operator(Div)` over `Int(1)` and `Int(0)`. -/
def divCtx : Ctx :=
  { instructions := [⟨.operator .div, 1⟩], stack := [[.int 1, .int 0]], vars := [], cursor := 0 }

/-- Context executing `Operator(Rem)` over `Int(5)` and `Int(0)`. -/
def remCtx : Ctx :=
  { instructions := [⟨.operator .rem, 3⟩], stack := [[.int 5, .int 0]], vars := [], cursor := 0 }

/-- Builtin whose `run` returns `Int(5)` and leaves the context unchanged. -/
def retFiveBuiltin : Builtin := { runB := fun _ c => (c, some (.int 5)), loadB := fun _ => .int 0 }

/-- Context executing `CallBuiltin("f")` with an argument block `[Int 9]`
on top of an enclosing block `[Int 2]`. -/
def callCtx : Ctx :=
  { instructions := [⟨.callBuiltin "f", 1⟩], stack := [[.int 9], [.int 2]], vars := [], cursor := 0 }

end Kes.Old

section OldClaimTheorems

open Kes.Old

/-- C3: executing any `Print`-class instruction passes every value of the
current stack block to `builtin.print` in insertion (bottom-to-top) order
and empties the block, then calls `builtin.new_line()` iff the instruction
is `PrintLine` or `PrintWait` (newline or wait set), then calls
`builtin.wait()` iff it is `PrintWait` (wait set). -/
theorem kes_c3_print_flush_order (B : Builtin) (c : Ctx) (blk : List Value)
    (rest : List (List Value)) (inst : Instruction) (nl w : Bool)
    (hstack : c.stack = blk :: rest)
    (hflags : printFlags inst = some (nl, w)) :
    run_instruction B c inst =
      (.ok { c with stack := ([] : List Value) :: rest, cursor := c.cursor + 1 },
       blk.map Event.print
         ++ (if nl || w then [Event.newLine] else [])
         ++ (if w then [Event.wait] else [])) := by
  cases inst <;>
    simp only [printFlags, Option.some.injEq, Prod.mk.injEq, reduceCtorEq, false_and] at hflags
  all_goals obtain ⟨h1, h2⟩ := hflags
  all_goals subst h1; subst h2
  all_goals simp [run_instruction, flushOut, Ctx.flush_print, hstack, advance]

/-- Witness for C3: `PrintWait` over the block `[Int 3, Str "a"]` prints
both values in order, then a newline, then a wait. -/
theorem kes_c3_print_flush_order_witness :
    run_instruction dummyBuiltin printCtx .printWait =
      (.ok { printCtx with stack := [[], [Value.int 7]], cursor := 1 },
       [.print (.int 3), .print (.str "a"), .newLine, .wait]) :=
  kes_c3_print_flush_order dummyBuiltin printCtx [.int 3, .str "a"] [[.int 7]]
    .printWait true true rfl rfl

/-- C4: a `BinaryOperator` with `And`, `Or`, or `Xor` pops both operands,
projects each to its truthiness (`Int(0)` and `Str("")` are false), applies
the boolean operation to both projections (not bitwise, not
short-circuiting), and pushes `Int(1)` if the result is true and `Int(0)`
otherwise. -/
theorem kes_c4_bool_binops (B : Builtin) (c : Ctx) (blk : List Value) (x y : Value)
    (rest : List (List Value)) (op : Operator) (f : Bool → Bool → Bool) (line : Nat)
    (hstack : c.stack = (blk ++ [x, y]) :: rest)
    (hop : boolOpFn op = some f)
    (hline : c.lineNo = some line) :
    run_instruction B c (.operator op) =
      (.ok { c with
              stack := (blk ++ [.int (if f x.into_bool y.into_bool then 1 else 0)]) :: rest,
              cursor := c.cursor + 1 }, []) := by
  cases op <;>
    simp only [boolOpFn, Option.some.injEq, reduceCtorEq] at hop
  all_goals subst hop
  · simp [run_instruction, Ctx.run_operator, advanceOut, advance,
      binBool_spec c _ blk x y rest line hstack hline]
  · simp [run_instruction, Ctx.run_operator, advanceOut, advance,
      binBool_spec c _ blk x y rest line hstack hline]
  · simp [run_instruction, Ctx.run_operator, advanceOut, advance,
      binBool_spec c _ blk x y rest line hstack hline]

/-- Witness for C4: `And` on `Int(1)` and `Int(2)` pushes `Int(1)`, not
`Int(0)` (both operands are truthy; the operation is not bitwise). -/
theorem kes_c4_bool_binops_witness :
    run_instruction dummyBuiltin andCtx (.operator .and) =
      (.ok { andCtx with stack := [[Value.int 1]], cursor := 1 }, []) :=
  kes_c4_bool_binops dummyBuiltin andCtx [] (.int 1) (.int 2) [] .and
    (fun l r => l && r) 4 rfl rfl rfl

/-- C5 counterexample: executing `LoadVar("x")` with an empty variables
table panics (`variables[name]` indexes the map, which panics on a missing
key) — it does not return the runtime error `"변수를 찾을수 없습니다"`. -/
theorem kes_c5_load_var_counterexample :
    run_instruction dummyBuiltin loadVarCtx (.loadVar "x") = (.panic, []) ∧
    (Outcome.panic, ([] : List Event)) ≠
      (Outcome.err (.executionError "변수를 찾을수 없습니다" 1), ([] : List Event)) :=
  ⟨rfl, by decide⟩

/-- C5 amended: for a symbol absent from the variables table, `LoadVar`
panics (map index on a missing key) rather than returning a runtime error;
when the symbol is present, `LoadVar` pushes the stored value and leaves
the variables table unchanged. -/
theorem kes_c5_load_var_amended (B : Builtin) (c : Ctx) (name : String) :
    (lookupVar c.vars name = none →
      run_instruction B c (.loadVar name) = (.panic, [])) ∧
    (∀ v blk rest, lookupVar c.vars name = some v → c.stack = blk :: rest →
      run_instruction B c (.loadVar name) =
        (.ok { c with stack := (blk ++ [v]) :: rest, cursor := c.cursor + 1 }, [])) := by
  constructor
  · intro h; simp [run_instruction, h]
  · intro v blk rest h hs
    simp [run_instruction, h, pushOut, pushV, hs, advanceOut, advance]

/-- Witness for C5 (amended): the absent case panics; the present case
pushes the stored `Int(7)` and leaves the table unchanged. -/
theorem kes_c5_load_var_witness :
    run_instruction dummyBuiltin loadVarCtx (.loadVar "x") = (.panic, []) ∧
    run_instruction dummyBuiltin loadVarCtx2 (.loadVar "x") =
      (.ok { loadVarCtx2 with stack := [[Value.int 7]], cursor := 1 }, []) :=
  ⟨(kes_c5_load_var_amended dummyBuiltin loadVarCtx "x").1 rfl,
   (kes_c5_load_var_amended dummyBuiltin loadVarCtx2 "x").2 (.int 7) [] [] rfl rfl⟩

/-- C6 counterexample: `Div` over `Int(1)` and `Int(0)` panics (Rust
integer division by zero) — the outcome is not a returned `RuntimeError`. -/
theorem kes_c6_div_zero_counterexample :
    run_instruction dummyBuiltin divCtx (.operator .div) = (.panic, []) ∧
    Outcome.isErr (run_instruction dummyBuiltin divCtx (.operator .div)).1 = false := by
  decide

/-- C6 amended: a `BinaryOperator` `Div` or `Rem` whose integer right-hand
operand is `Int(0)` panics (attempt to divide by zero) rather than
returning a `RuntimeError` or producing a value. -/
theorem kes_c6_div_zero_amended (B : Builtin) (c : Ctx) (blk : List Value) (a : Nat)
    (rest : List (List Value)) (op : Operator)
    (hop : op = .div ∨ op = .rem)
    (hstack : c.stack = (blk ++ [.int a, .int 0]) :: rest) :
    run_instruction B c (.operator op) = (.panic, []) := by
  have hxy : blk ++ [Value.int a, Value.int 0] = (blk ++ [Value.int a]) ++ [Value.int 0] := by
    simp
  rw [hxy] at hstack
  rcases hop with rfl | rfl <;>
    cases hl : c.lineNo with
  | none =>
    simp [run_instruction, Ctx.run_operator, binNat, Ctx.pop_into_ret_u32, Ctx.pop_ret,
      hstack, hl, advanceOut]
  | some line =>
    have h1 := pop_ret_concat c (blk ++ [.int a]) (.int 0) rest line hstack hl
    have h2 := pop_ret_concat { c with stack := (blk ++ [.int a]) :: rest } blk (.int a) rest
      line rfl hl
    simp [run_instruction, Ctx.run_operator, binNat, Ctx.pop_into_ret_u32, h1, h2, advanceOut]

/-- Witness for C6 (amended): both `Div` and `Rem` panic on a zero
right-hand operand. -/
theorem kes_c6_div_zero_witness :
    run_instruction dummyBuiltin divCtx (.operator .div) = (.panic, []) ∧
    run_instruction dummyBuiltin remCtx (.operator .rem) = (.panic, []) :=
  ⟨kes_c6_div_zero_amended dummyBuiltin divCtx [] 1 [] .div (Or.inl rfl) rfl,
   kes_c6_div_zero_amended dummyBuiltin remCtx [] 5 [] .rem (Or.inr rfl) rfl⟩

/-- C10: after a `CallBuiltin` instruction's builtin call returns, the
block that was current is removed wholesale from the block stack (its
residue discarded), and when the builtin produced a value it is pushed onto
the enclosing block which becomes current. -/
theorem kes_c10_call_builtin_discipline (B : Builtin) (c c1 : Ctx) (name : String)
    (ret : Option Value)
    (h : B.runB name c = (c1, ret)) :
    (ret = none → run_instruction B c (.callBuiltin name) =
        (.ok { c1 with stack := c1.stack.tail, cursor := c1.cursor + 1 }, [.runCall name])) ∧
    (∀ v b rest, ret = some v → c1.stack.tail = b :: rest →
      run_instruction B c (.callBuiltin name) =
        (.ok { c1 with stack := (b ++ [v]) :: rest, cursor := c1.cursor + 1 },
         [.runCall name])) := by
  constructor
  · rintro rfl; simp [run_instruction, h, advance]
  · rintro v b rest rfl ht
    simp [run_instruction, h, pushOut, pushV, ht, advanceOut, advance]

/-- Witness for C10: calling a builtin that returns `Int(5)` discards the
argument block `[Int 9]` entirely and pushes the result onto the enclosing
block `[Int 2]`. -/
theorem kes_c10_call_builtin_discipline_witness :
    run_instruction retFiveBuiltin callCtx (.callBuiltin "f") =
      (.ok { callCtx with stack := [[Value.int 2, Value.int 5]], cursor := 1 },
       [.runCall "f"]) :=
  (kes_c10_call_builtin_discipline retFiveBuiltin callCtx callCtx "f" (some (.int 5))
    rfl).2 (.int 5) [.int 2] [] rfl rfl

end OldClaimTheorems

namespace Kes.Mat

/-- `Symbol` (src/interner.rs): a `NonZeroU32` handle; carried as `Nat`. -/
abbrev Symbol := Nat

/-- `UnaryOperator` (src/operator.rs). -/
inductive UnaryOperator where
  | not
deriving DecidableEq, Repr

/-- `BinaryOperator` (src/operator.rs). -/
inductive BinaryOperator where
  | add | sub | div | mul | rem | and | or | xor
  | equal | notEqual | less | lessOrEqual | greater | greaterOrEqual
deriving DecidableEq, Repr

/-- `TernaryOperator` (src/operator.rs). -/
inductive TernaryOperator where
  | conditional
deriving DecidableEq, Repr

/-- `Expr` of the mature AST, with the variants matched by
`Compiler::push_expr` (src/compiler.rs): `Number`, `String`, `Variable`,
`BuiltinFunc`, `UnaryOp`, `BinaryOp`, `TernaryOp`. -/
inductive Expr where
  | number (n : Nat)
  | string (s : Symbol)
  | var (s : Symbol)
  | builtinFunc (name : Symbol) (args : List Expr)
  | unaryOp (value : Expr) (op : UnaryOperator)
  | binaryOp (lhs rhs : Expr) (op : BinaryOperator)
  | ternaryOp (lhs mhs rhs : Expr) (op : TernaryOperator)

/-- `Stmt` of the mature AST, with the fields matched by
`Compiler::compile_stmt` (src/compiler.rs).  `Location` is its line
number. -/
inductive Stmt where
  | exit (location : Nat)
  | print (values : List Expr) (newline wait : Bool) (location : Nat)
  | assign (var : Symbol) (value : Expr) (location : Nat)
  | expression (e : Expr) (location : Nat)
  | ifS (arms : List (Expr × List Stmt)) (other : List Stmt) (location : Nat)
  | whileS (cond : Expr) (body : List Stmt) (location : Nat)

/-- The mature `Instruction` set (spec §3; constructors as emitted by
src/compiler.rs and serialized by src/program.rs). -/
inductive Instruction where
  | nop
  | exit
  | pop
  | duplicate
  | loadInt (n : Nat)
  | loadStr (s : Symbol)
  | loadVar (s : Symbol)
  | storeVar (s : Symbol)
  | callBuiltin (s : Symbol)
  | print (newline wait : Bool)
  | binaryOperator (op : BinaryOperator)
  | unaryOperator (op : UnaryOperator)
  | ternaryOperator (op : TernaryOperator)
  | goto (p : Nat)
  | gotoIfNot (p : Nat)
deriving DecidableEq, Repr

/-- `InstructionWithDebug` of the mature iteration: an instruction with the
location of its originating statement. -/
structure InstructionWithDebug where
  inst : Instruction
  location : Nat
deriving DecidableEq, Repr

/-- `Compiler` state (src/compiler.rs): the emitted vector and the current
location. -/
structure Compiler where
  out : List InstructionWithDebug
  location : Nat
deriving DecidableEq, Repr

/-- `Compiler::push`: append the instruction tagged with the current
location. -/
def Compiler.push (st : Compiler) (inst : Instruction) : Compiler :=
  { st with out := st.out ++ [⟨inst, st.location⟩] }

/-- `Compiler::next_pos`. -/
def Compiler.next_pos (st : Compiler) : Nat := st.out.length

/-- `Compiler::mark_pos`: remember the next index and push a `Nop`
placeholder there. -/
def Compiler.mark_pos (st : Compiler) : Nat × Compiler :=
  (st.next_pos, st.push .nop)

/-- `self.out[idx].inst = inst`: patch the opcode at `idx`, keeping its
location.  The marks produced by `mark_pos` are always in range; an
out-of-range index (where Rust would panic) leaves the vector unchanged. -/
def Compiler.setInst (st : Compiler) (idx : Nat) (inst : Instruction) : Compiler :=
  { st with out :=
      match st.out.get? idx with
      | some e => st.out.set idx { e with inst := inst }
      | none => st.out }

/-- The final loop of the `Stmt::If` arm: patch every remembered
end-of-arm placeholder to `Goto(next_pos)`. -/
def patchGotos (st : Compiler) (marks : List Nat) : Compiler :=
  marks.foldl (fun s m => s.setInst m (.goto s.next_pos)) st

mutual

/-- `Compiler::push_expr` (src/compiler.rs): post-order expression
lowering. -/
def push_expr (st : Compiler) : Expr → Compiler
  | .number n => st.push (.loadInt n)
  | .string s => st.push (.loadStr s)
  | .var s => st.push (.loadVar s)
  | .builtinFunc name args => (push_expr_list st args).push (.callBuiltin name)
  | .unaryOp v op => (push_expr st v).push (.unaryOperator op)
  | .binaryOp l r op => (push_expr (push_expr st l) r).push (.binaryOperator op)
  | .ternaryOp l m r op =>
      (push_expr (push_expr (push_expr st l) m) r).push (.ternaryOperator op)

/-- The argument loop of `Expr::BuiltinFunc`: emit each argument in
order. -/
def push_expr_list (st : Compiler) : List Expr → Compiler
  | [] => st
  | e :: rest => push_expr_list (push_expr st e) rest

end

mutual

/-- `Compiler::compile_stmt` (src/compiler.rs).  The `If` arm's `else_mark`
is an `ArrayVec` capped at 20 arms in the source; it is carried here as a
plain list (every claim compiles at most two arms). -/
def compile_stmt (st : Compiler) : Stmt → Compiler
  | .exit loc => ({ st with location := loc }).push .exit
  | .print values nl w loc =>
      (push_expr_list { st with location := loc } values).push (.print nl w)
  | .assign var value loc =>
      (push_expr { st with location := loc } value).push (.storeVar var)
  | .expression e loc =>
      (push_expr { st with location := loc } e).push .pop
  | .ifS arms other loc =>
      let st1 : Compiler := { st with location := loc }
      let r := compile_if_arms st1 arms true 0 []
      let st3 := if arms.isEmpty then r.1 else r.1.setInst r.2.1 (.gotoIfNot r.1.next_pos)
      let st4 := compile_body st3 other
      patchGotos st4 r.2.2
  | .whileS cond body loc =>
      let st1 : Compiler := { st with location := loc }
      let first := st1.next_pos
      let st2 := push_expr st1 cond
      let m := st2.mark_pos
      let st4 := compile_body m.2 body
      let st5 := st4.push (.goto first)
      st5.setInst m.1 (.gotoIfNot st5.next_pos)

/-- `Compiler::compile_body`. -/
def compile_body (st : Compiler) : List Stmt → Compiler
  | [] => st
  | s :: rest => compile_body (compile_stmt st s) rest

/-- The arm loop of the `Stmt::If` case: before each non-first arm, patch
the previous arm's placeholder to `GotoIfNot(next_pos)`; emit the
condition; reserve the arm's own `GotoIfNot` placeholder; emit the body;
reserve the end-of-arm `Goto` placeholder.  Returns the state, the last
arm's placeholder index, and the end-of-arm marks. -/
def compile_if_arms (st : Compiler) : List (Expr × List Stmt) → Bool → Nat → List Nat →
    Compiler × Nat × List Nat
  | [], _, mark, ems => (st, mark, ems)
  | (cond, body) :: rest, first, mark, ems =>
      let st1 := if first then st else st.setInst mark (.gotoIfNot st.next_pos)
      let st2 := push_expr st1 cond
      let m := st2.mark_pos
      let st4 := compile_body m.2 body
      let e := st4.mark_pos
      compile_if_arms e.2 rest false m.1 (ems ++ [e.1])

end

/-- `Compiler::compile`: `Compiler::new()` (empty output, default location
0) followed by `compile_body`. -/
def compile (program : List Stmt) : List InstructionWithDebug :=
  (compile_body ⟨[], 0⟩ program).out

/-- Modelled from the spec: the AST produced by parsing
`"만약 1+2 { 0; } 혹은 1 { 1; } 그외 { 2; }"` per the grammar of §4.2
(`만약 expr { body } (혹은 expr { body })* (그외 { body })?`, expression
statements ended by `;`).  The mature parser is not among the files under
src/; every statement is on source line 1. -/
def ifChainAst : List Stmt :=
  [.ifS
    [(.binaryOp (.number 1) (.number 2) .add, [.expression (.number 0) 1]),
     (.number 1, [.expression (.number 1) 1])]
    [.expression (.number 2) 1] 1]

/-- Modelled from the spec: the AST of `"반복 1+2 { 2; } 3;"` per the
grammar of §4.2 (`반복 expr { body }` followed by an expression
statement). -/
def whileAst : List Stmt :=
  [.whileS (.binaryOp (.number 1) (.number 2) .add) [.expression (.number 2) 1] 1,
   .expression (.number 3) 1]

end Kes.Mat

section MatClaimTheorems

open Kes.Mat

/-- C1: compiling the if / else-if / else chain
`"만약 1+2 { 0; } 혹은 1 { 1; } 그외 { 2; }"` produces exactly the
14-instruction sequence of the claim: each arm's `GotoIfNot` is patched to
the start of the next arm's condition (7), the last arm's to the else body
(12), and both end-of-arm `Goto`s to the index just past the chain (14). -/
theorem kes_c1_if_chain_compiles :
    (compile ifChainAst).map (·.inst) =
      [.loadInt 1, .loadInt 2, .binaryOperator .add, .gotoIfNot 7, .loadInt 0, .pop,
       .goto 14, .loadInt 1, .gotoIfNot 12, .loadInt 1, .pop, .goto 14, .loadInt 2,
       .pop] := by decide

/-- C2: compiling `"반복 1+2 { 2; } 3;"` produces exactly the claimed
sequence: the condition at the loop top, `GotoIfNot` patched to just past
the backward `Goto` (7), the body, `Goto 0` back to the condition, then the
trailing expression statement. -/
theorem kes_c2_while_loop_compiles :
    (compile whileAst).map (·.inst) =
      [.loadInt 1, .loadInt 2, .binaryOperator .add, .gotoIfNot 7, .loadInt 2, .pop,
       .goto 0, .loadInt 3, .pop] := by decide

end MatClaimTheorems

namespace Kes.Mat

/-- `Program` (src/program.rs): the embedded interner and the instruction
vector.  The interner is its string table in symbol order (`Symbol k`
resolves to index `k - 1`, per `try_from_usize` in src/interner.rs). -/
structure Program where
  interner : List String
  instructions : List InstructionWithDebug
deriving DecidableEq, Repr

/-- Modelled from the spec: the serialization of the `Program` is done by
serde/bincode (external library code, not in src/); §6 prescribes a
compact deterministic length-prefixed binary.  Booleans are one token. -/
def encodeBool (b : Bool) : Nat := if b then 1 else 0

/-- Modelled from the spec: boolean decoder for the §6 format. -/
def decodeBool : Nat → Option Bool
  | 0 => some false
  | 1 => some true
  | _ => none

/-- Modelled from the spec: tag of a `BinaryOperator` record (§6 tagged
records; tags follow the enum order of src/operator.rs). -/
def binOpTag : BinaryOperator → Nat
  | .add => 0 | .sub => 1 | .div => 2 | .mul => 3 | .rem => 4
  | .and => 5 | .or => 6 | .xor => 7
  | .equal => 8 | .notEqual => 9 | .less => 10 | .lessOrEqual => 11
  | .greater => 12 | .greaterOrEqual => 13

/-- Modelled from the spec: inverse of `binOpTag`. -/
def binOpOfTag : Nat → Option BinaryOperator
  | 0 => some .add | 1 => some .sub | 2 => some .div | 3 => some .mul | 4 => some .rem
  | 5 => some .and | 6 => some .or | 7 => some .xor
  | 8 => some .equal | 9 => some .notEqual | 10 => some .less | 11 => some .lessOrEqual
  | 12 => some .greater | 13 => some .greaterOrEqual
  | _ => none

/-- Modelled from the spec: each instruction as a tagged record (§6), tags
in the declaration order of the mature `Instruction` enum. -/
def encodeInstr : Instruction → List Nat
  | .nop => [0]
  | .exit => [1]
  | .pop => [2]
  | .duplicate => [3]
  | .loadInt n => [4, n]
  | .loadStr s => [5, s]
  | .loadVar s => [6, s]
  | .storeVar s => [7, s]
  | .callBuiltin s => [8, s]
  | .print nl w => [9, encodeBool nl, encodeBool w]
  | .binaryOperator op => [10, binOpTag op]
  | .unaryOperator .not => [11, 0]
  | .ternaryOperator .conditional => [12, 0]
  | .goto p => [13, p]
  | .gotoIfNot p => [14, p]

/-- Modelled from the spec: instruction decoder for the §6 tagged
records. -/
def decodeInstr : List Nat → Option (Instruction × List Nat)
  | 0 :: r => some (.nop, r)
  | 1 :: r => some (.exit, r)
  | 2 :: r => some (.pop, r)
  | 3 :: r => some (.duplicate, r)
  | 4 :: n :: r => some (.loadInt n, r)
  | 5 :: s :: r => some (.loadStr s, r)
  | 6 :: s :: r => some (.loadVar s, r)
  | 7 :: s :: r => some (.storeVar s, r)
  | 8 :: s :: r => some (.callBuiltin s, r)
  | 9 :: a :: b :: r =>
      match decodeBool a, decodeBool b with
      | some nl, some w => some (.print nl w, r)
      | _, _ => none
  | 10 :: t :: r => (binOpOfTag t).map fun op => (.binaryOperator op, r)
  | 11 :: 0 :: r => some (.unaryOperator .not, r)
  | 12 :: 0 :: r => some (.ternaryOperator .conditional, r)
  | 13 :: p :: r => some (.goto p, r)
  | 14 :: p :: r => some (.gotoIfNot p, r)
  | _ => none

/-- Modelled from the spec: an `InstructionWithDebug` record is the
instruction followed by its location. -/
def encodeIWD (i : InstructionWithDebug) : List Nat :=
  encodeInstr i.inst ++ [i.location]

/-- Modelled from the spec: decoder for `InstructionWithDebug` records. -/
def decodeIWD (bytes : List Nat) : Option (InstructionWithDebug × List Nat) :=
  match decodeInstr bytes with
  | some (inst, loc :: r) => some (⟨inst, loc⟩, r)
  | _ => none

/-- Modelled from the spec: a string is length-prefixed (§6), followed by
its character codes. -/
def encodeString (s : String) : List Nat :=
  s.data.length :: s.data.map Char.toNat

/-- Modelled from the spec: read `n` character codes. -/
def decodeChars : Nat → List Nat → Option (List Char × List Nat)
  | 0, r => some ([], r)
  | _ + 1, [] => none
  | n + 1, c :: r => (decodeChars n r).map fun p => (Char.ofNat c :: p.1, p.2)

/-- Modelled from the spec: string decoder for the §6 format. -/
def decodeString (bytes : List Nat) : Option (String × List Nat) :=
  match bytes with
  | n :: r => (decodeChars n r).map fun p => (String.mk p.1, p.2)
  | [] => none

/-- Modelled from the spec: a sequence is its length followed by the
encoded items (§6 length-prefixed sequences). -/
def encodeListWith (enc : α → List Nat) (l : List α) : List Nat :=
  l.length :: l.foldr (fun a acc => enc a ++ acc) []

/-- Modelled from the spec: read `n` items with the given item decoder. -/
def decodeCount (dec : List Nat → Option (α × List Nat)) :
    Nat → List Nat → Option (List α × List Nat)
  | 0, r => some ([], r)
  | n + 1, r =>
      match dec r with
      | some (a, r1) => (decodeCount dec n r1).map fun p => (a :: p.1, p.2)
      | none => none

/-- Modelled from the spec: sequence decoder for the §6 format. -/
def decodeListWith (dec : List Nat → Option (α × List Nat)) (bytes : List Nat) :
    Option (List α × List Nat) :=
  match bytes with
  | n :: r => decodeCount dec n r
  | [] => none

/-- Modelled from the spec: `bincode::serialize` of a `Program` (§6): the
interner as a length-prefixed sequence of length-prefixed strings, then
the instruction vector as a length-prefixed sequence of tagged records. -/
def encodeProgram (p : Program) : List Nat :=
  encodeListWith encodeString p.interner ++ encodeListWith encodeIWD p.instructions

/-- Modelled from the spec: `bincode::deserialize` of a `Program`; fails on
trailing input. -/
def decodeProgram (bytes : List Nat) : Option Program :=
  match decodeListWith decodeString bytes with
  | some (interner, r1) =>
    match decodeListWith decodeIWD r1 with
    | some (instructions, []) => some ⟨interner, instructions⟩
    | _ => none
  | none => none

/-- Decoding the encoding of a character list returns it unchanged. -/
theorem decodeChars_encode (cs : List Char) (r : List Nat) :
    decodeChars cs.length (cs.map Char.toNat ++ r) = some (cs, r) := by
  induction cs with
  | nil => rfl
  | cons c cs ih => simp [decodeChars, ih, Char.ofNat_toNat]

/-- String encode/decode round trip, with arbitrary trailing input. -/
theorem decodeString_encode (s : String) (r : List Nat) :
    decodeString (encodeString s ++ r) = some (s, r) := by
  cases s with
  | mk data => simp [decodeString, encodeString, decodeChars_encode]

/-- Instruction encode/decode round trip, with arbitrary trailing input. -/
theorem decodeInstr_encode (i : Instruction) (r : List Nat) :
    decodeInstr (encodeInstr i ++ r) = some (i, r) := by
  cases i with
  | print nl w => cases nl <;> cases w <;> rfl
  | binaryOperator op => cases op <;> rfl
  | unaryOperator op => cases op; rfl
  | ternaryOperator op => cases op; rfl
  | _ => rfl

/-- Located-instruction encode/decode round trip. -/
theorem decodeIWD_encode (i : InstructionWithDebug) (r : List Nat) :
    decodeIWD (encodeIWD i ++ r) = some (i, r) := by
  cases i with
  | mk inst loc => simp [decodeIWD, encodeIWD, decodeInstr_encode]

/-- Counted-sequence round trip, given the item round trip. -/
theorem decodeCount_encode (enc : α → List Nat) (dec : List Nat → Option (α × List Nat))
    (H : ∀ a r, dec (enc a ++ r) = some (a, r)) (l : List α) (r : List Nat) :
    decodeCount dec l.length (l.foldr (fun a acc => enc a ++ acc) [] ++ r) = some (l, r) := by
  induction l with
  | nil => rfl
  | cons a l ih => simp [decodeCount, H, ih]

/-- Length-prefixed sequence round trip, given the item round trip. -/
theorem decodeListWith_encode (enc : α → List Nat) (dec : List Nat → Option (α × List Nat))
    (H : ∀ a r, dec (enc a ++ r) = some (a, r)) (l : List α) (r : List Nat) :
    decodeListWith dec (encodeListWith enc l ++ r) = some (l, r) := by
  simp [decodeListWith, encodeListWith, decodeCount_encode enc dec H]

end Kes.Mat

section ProgramClaimTheorems

open Kes.Mat

/-- C7: serializing any program to the binary format and deserializing the
bytes back yields a program structurally equal to the original, including
the embedded interner (its string table, hence every Symbol resolution) and
every located instruction. -/
theorem kes_c7_program_roundtrip (p : Program) :
    decodeProgram (encodeProgram p) = some p := by
  cases p with
  | mk interner instructions =>
    have h1 := decodeListWith_encode encodeString decodeString decodeString_encode interner
      (encodeListWith encodeIWD instructions)
    have h2 := decodeListWith_encode encodeIWD decodeIWD decodeIWD_encode instructions []
    simp [decodeProgram, encodeProgram, h1, List.append_nil] at h2 ⊢
    simp [h2]

end ProgramClaimTheorems

namespace Kes.Old

/-- `ParserError` (src/error.rs), the lexer's error type. -/
inductive LexErr where
  | invalidCode (msg : String) (line : Nat)
  | invalidChar (c : Char) (line : Nat)
  | unexpectedToken (tok : String) (line : Nat)
  | compileError (msg : String) (line : Nat)
  | unexpectedEndOfToken
deriving DecidableEq, Repr

/-- `Token<'s>` of the block iteration, with the variants produced by
src/lexer.rs (`If`, `ElseIf`, `Else`, `Select`, `Exit`, `Loop`,
`Conditional`, `Pop`, `Duplicate`, `PopExternal`, `Assign`, `Operator`,
`IntLit`, `Underscore`, `Builtin`, `StrLit`, `Variable`, braces, parens,
`Sharp`, `At`, `Colon`). -/
inductive Token where
  | ifKw | elseIfKw | elseKw | selectKw | exitKw | loopKw
  | conditional | popKw | duplicateKw
  | popExternal (n : Nat)
  | assign (name : String)
  | operatorT (op : Operator)
  | intLit (n : Nat)
  | underscore
  | builtin (s : String)
  | strLit (s : String)
  | varT (s : String)
  | openBrace | closeBrace | openParan | closeParan
  | sharp | atSign | colon
deriving DecidableEq, Repr

/-- `is_ident_char` (src/lexer.rs): `_`, digits, ASCII letters, and the
Hangul Jamo and syllable ranges. -/
def is_ident_char (c : Char) : Bool :=
  c = '_' || ('0' ≤ c && c ≤ '9') || ('a' ≤ c && c ≤ 'z') || ('A' ≤ c && c ≤ 'Z')
    || ('ㄱ' ≤ c && c ≤ 'ㅎ') || ('ㅏ' ≤ c && c ≤ 'ㅣ') || ('가' ≤ c && c ≤ '힣')

/-- The comment skip inside `Lexer::skip_ws`: `memchr(b'\n', slice)` jumps
to the next newline (which itself stays in the input) or to the end. -/
def dropComment (t : List Char) : List Char := t.dropWhile (· ≠ '\n')

/-- `dropWhile` never lengthens a list (termination measure for
`skip_ws`). -/
theorem dropWhile_length_le (p : Char → Bool) (l : List Char) :
    (l.dropWhile p).length ≤ l.length := by
  induction l with
  | nil => simp
  | cons c r ih =>
    by_cases h : p c
    · simp [List.dropWhile_cons, h]; omega
    · simp [List.dropWhile_cons, h]

/-- `Lexer::skip_ws` (src/lexer.rs): skip spaces, tabs and carriage
returns; count and skip newlines; on `;` skip up to (not including) the
next newline and continue; stop at any other byte.  The byte-level
iteration of the source is modelled on chars (every byte the loop
dispatches on is ASCII). -/
def skip_ws : List Char → Nat → List Char × Nat
  | [], line => ([], line)
  | c :: rest, line =>
    if c = ' ' ∨ c = '\t' ∨ c = '\r' then skip_ws rest line
    else if c = '\n' then skip_ws rest (line + 1)
    else if c = ';' then skip_ws (dropComment rest) line
    else (c :: rest, line)
termination_by t _ => t.length
decreasing_by
  all_goals simp [dropComment]
  have := dropWhile_length_le (fun x => !decide (x = '\n')) rest
  omega

/-- `Lexer::read_ident`: split at the first non-identifier char. -/
def read_ident (t : List Char) : List Char × List Char :=
  (t.takeWhile is_ident_char, t.dropWhile is_ident_char)

/-- `Lexer::try_strip_prefix`. -/
def tryStrip (p : List Char) (t : List Char) : Option (List Char) :=
  if p.isPrefixOf t then some (t.drop p.length) else none

/-- Rust `str::parse::<u32>` on the identifier alphabet: all decimal
digits, nonempty, value below `2^32` (a leading `+`, which Rust would also
accept, cannot occur in the identifier or bracket contexts exercised
here). -/
def parseU32 (cs : List Char) : Option Nat :=
  if cs ≠ [] ∧ cs.all (·.isDigit) then
    let v := cs.foldl (fun a c => a * 10 + (c.toNat - 48)) 0
    if v < 4294967296 then some v else none
  else none

/-- The `[!`/`[$` bracket bodies of `try_read_keyword`: find the closing
`]` (error, with the text left after the opening strip, when unpaired),
pass the segment to `mk`, and continue after the `]`. -/
def bracketRead (t : List Char) (line : Nat) (mk : List Char → Except LexErr Token)
    (errMsg : String) : Except LexErr Token × List Char :=
  if t.contains ']' then
    (mk (t.takeWhile (· ≠ ']')), (t.dropWhile (· ≠ ']')).drop 1)
  else
    (.error (.invalidCode errMsg line), t)

/-- `Lexer::try_read_keyword` (src/lexer.rs), also returning the text
after the prefixes it strips (the Rust method mutates `self.text` even on
the error paths). -/
def try_read_keyword (t : List Char) (line : Nat) :
    Option (Except LexErr Token) × List Char :=
  match tryStrip "만약".data t with
  | some r => (some (.ok .ifKw), r)
  | none =>
  match tryStrip "혹은".data t with
  | some r => (some (.ok .elseIfKw), r)
  | none =>
  match tryStrip "그외".data t with
  | some r => (some (.ok .elseKw), r)
  | none =>
  match tryStrip "선택".data t with
  | some r => (some (.ok .selectKw), r)
  | none =>
  match tryStrip "종료".data t with
  | some r => (some (.ok .exitKw), r)
  | none =>
  match tryStrip "반복".data t with
  | some r => (some (.ok .loopKw), r)
  | none =>
  match tryStrip "[?]".data t with
  | some r => (some (.ok .conditional), r)
  | none =>
  match tryStrip "[-]".data t with
  | some r => (some (.ok .popKw), r)
  | none =>
  match tryStrip "[+]".data t with
  | some r => (some (.ok .duplicateKw), r)
  | none =>
  match tryStrip "[!".data t with
  | some r =>
      let p := bracketRead r line
        (fun seg =>
          if seg.isEmpty then .ok (.popExternal 0)
          else match parseU32 seg with
            | some n => .ok (.popExternal n)
            | none => .error (.invalidCode "[!]안에는 숫자가 와야합니다" line))
        "Assign bracket is not paired"
      (some p.1, p.2)
  | none =>
  match tryStrip "[$".data t with
  | some r =>
      let p := bracketRead r line (fun seg => .ok (.assign (String.mk seg)))
        "Assign bracket is not paired"
      (some p.1, p.2)
  | none => (none, t)

/-- `Lexer::try_read_operator` (src/lexer.rs), with the two-byte forms
`>=`, `<=`, `~=` tried before their one-byte heads. -/
def try_read_operator : List Char → Option (Operator × List Char)
  | '+' :: r => some (.add, r)
  | '-' :: r => some (.sub, r)
  | '*' :: r => some (.mul, r)
  | '/' :: r => some (.div, r)
  | '%' :: r => some (.rem, r)
  | '&' :: r => some (.and, r)
  | '|' :: r => some (.or, r)
  | '^' :: r => some (.xor, r)
  | '=' :: r => some (.equal, r)
  | '>' :: '=' :: r => some (.greaterOrEqual, r)
  | '>' :: r => some (.greater, r)
  | '<' :: '=' :: r => some (.lessOrEqual, r)
  | '<' :: r => some (.less, r)
  | '~' :: '=' :: r => some (.notEqual, r)
  | '~' :: r => some (.not, r)
  | _ => none

/-- One lexing step: a token with the remaining text, a `ParserError`, or a
panic (`chars().next().unwrap()` on empty text). -/
inductive LexStep where
  | ok (tok : Token) (rest : List Char)
  | err (e : LexErr)
  | panic
deriving DecidableEq, Repr

/-- `Lexer::read_next` (src/lexer.rs): keyword (errors discarded by the
`if let Ok(Some(..))`, consumed text kept), then operator, then
identifier (digit-first runs must parse as `u32`, `_` is `Underscore`,
anything else a `Builtin`), then the single-char starts: `'` string
literals, `$` variables, braces, parens, `#` → `Sharp`, `@` → `At`, `:` →
`Colon`, otherwise `InvalidChar`. -/
def read_next (t : List Char) (line : Nat) : LexStep :=
  match try_read_keyword t line with
  | (some (.ok tok), r) => .ok tok r
  | (_, t1) =>
    match try_read_operator t1 with
    | some (op, r) => .ok (.operatorT op) r
    | none =>
      match (read_ident t1).1 with
      | c :: cs =>
        if '0' ≤ c ∧ c ≤ '9' then
          match parseU32 (c :: cs) with
          | some n => .ok (.intLit n) (read_ident t1).2
          | none => .err (.invalidCode "변수가 아닌 식별자는 숫자부터 시작할수 없습니다" line)
        else if c :: cs = ['_'] then .ok .underscore (read_ident t1).2
        else .ok (.builtin (String.mk (c :: cs))) (read_ident t1).2
      | [] =>
        match t1 with
        | '\'' :: r =>
          if r.contains '\'' then
            .ok (.strLit (String.mk (r.takeWhile (· ≠ '\'')))) ((r.dropWhile (· ≠ '\'')).drop 1)
          else .err (.invalidCode "String quote is not paired" line)
        | '$' :: r => .ok (.varT (String.mk (read_ident r).1)) (read_ident r).2
        | '{' :: r => .ok .openBrace r
        | '}' :: r => .ok .closeBrace r
        | '(' :: r => .ok .openParan r
        | ')' :: r => .ok .closeParan r
        | '#' :: r => .ok .sharp r
        | '@' :: r => .ok .atSign r
        | ':' :: r => .ok .colon r
        | c :: _ => .err (.invalidChar c line)
        | [] => .panic

/-- `Iterator::next` for the lexer: `skip_ws`, then `None` at end of input,
else `read_next`; also returns the updated line counter. -/
def lexer_next (t : List Char) (line : Nat) : Option LexStep × Nat :=
  let s := skip_ws t line
  if s.1.isEmpty then (none, s.2) else (some (read_next s.1 s.2), s.2)

end Kes.Old

section LexerClaimTheorems

open Kes.Old

/-- C8 counterexample: lexing `"#"` produces the token `Sharp` (so `'#'`
does become a token of its own, and does not start a comment), while a
line comment introduced by `';'` (here `";ab\n"`) is skipped without
producing a token. -/
theorem kes_c8_lexer_counterexample :
    lexer_next "#".data 1 = (some (.ok .sharp []), 1) ∧
    lexer_next ";ab\n#".data 1 = (some (.ok .sharp []), 2) := by
  have h2 : skip_ws ['#'] 2 = (['#'], 2) := by rw [skip_ws]; simp
  have h3 : skip_ws ['\n', '#'] 1 = (['#'], 2) := by rw [skip_ws]; simp [h2]
  have hd : dropComment ['a', 'b', '\n', '#'] = ['\n', '#'] := rfl
  have h4 : skip_ws [';', 'a', 'b', '\n', '#'] 1 = (['#'], 2) := by
    rw [skip_ws]; simp [hd, h3]
  have h1 : skip_ws ['#'] 1 = (['#'], 1) := by rw [skip_ws]; simp
  constructor
  · show lexer_next ['#'] 1 = _
    simp only [lexer_next, h1]
    rfl
  · show lexer_next [';', 'a', 'b', '\n', '#'] 1 = _
    simp only [lexer_next, h4]
    rfl

/-- C8 amended: between tokens the lexer skips the whitespace characters
space, tab, carriage return, and newline (counting lines at each newline);
line comments begin with `';'` — not `'#'` — and run up to the next
newline, producing no token; a `'#'` character lexes to the token `Sharp`
with the rest of the input untouched. -/
theorem kes_c8_lexer_amended (t : List Char) (line : Nat) :
    skip_ws (' ' :: t) line = skip_ws t line ∧
    skip_ws ('\t' :: t) line = skip_ws t line ∧
    skip_ws ('\r' :: t) line = skip_ws t line ∧
    skip_ws ('\n' :: t) line = skip_ws t (line + 1) ∧
    skip_ws (';' :: t) line = skip_ws (t.dropWhile (· ≠ '\n')) line ∧
    lexer_next ('#' :: t) line = (some (.ok .sharp t), line) := by
  refine ⟨?_, ?_, ?_, ?_, ?_, ?_⟩
  · rw [skip_ws]; simp
  · rw [skip_ws]; simp
  · rw [skip_ws]; simp
  · rw [skip_ws]; simp
  · rw [skip_ws]; simp [dropComment]
  · have hs : skip_ws ('#' :: t) line = ('#' :: t, line) := by rw [skip_ws]; simp
    simp only [lexer_next, hs]
    rfl

end LexerClaimTheorems

namespace Kes.Fmt

open Kes.Mat (Symbol UnaryOperator BinaryOperator TernaryOperator)

/-- Modelled from the spec: `UnaryOperator::name` is called by
src/formatter.rs but not defined in src/operator.rs; the name follows the
operator table of §4.1. -/
def unopName : UnaryOperator → String
  | .not => "!"

/-- Modelled from the spec: `BinaryOperator::name` per the operator table
of §4.1. -/
def binopName : BinaryOperator → String
  | .add => "+" | .sub => "-" | .mul => "*" | .div => "/" | .rem => "%"
  | .and => "&" | .or => "|" | .xor => "^"
  | .equal => "==" | .notEqual => "!=" | .less => "<" | .lessOrEqual => "<="
  | .greater => ">" | .greaterOrEqual => ">="

/-- Modelled from the spec: `TernaryOperator::first_name` (`?`). -/
def ternFirstName : TernaryOperator → String
  | .conditional => "?"

/-- Modelled from the spec: `TernaryOperator::second_name` (`:`). -/
def ternSecondName : TernaryOperator → String
  | .conditional => ":"

/-- `Expr` as displayed by src/formatter.rs (this iteration of the AST has
the `Nop` paren-fidelity variant matched by `ExprDisplay`). -/
inductive FExpr where
  | number (n : Nat)
  | stringE (s : Symbol)
  | var (s : Symbol)
  | builtinFunc (name : Symbol) (args : List FExpr)
  | nop (value : FExpr)
  | binaryOp (lhs rhs : FExpr) (op : BinaryOperator)
  | unaryOp (value : FExpr) (op : UnaryOperator)
  | ternaryOp (lhs mhs rhs : FExpr) (op : TernaryOperator)

mutual

/-- `ExprDisplay::fmt` (src/formatter.rs).  `res` is
`interner.resolve(sym).unwrap()`, assumed total (spec invariant 3: every
referenced symbol has a mapping). -/
def display (res : Nat → String) : FExpr → String
  | .number n => toString n
  | .stringE s => "'" ++ res s ++ "'"
  | .var s => "$" ++ res s
  | .builtinFunc name args => res name ++ "(" ++ displayArgs res args ++ ")"
  | .nop v => "(" ++ display res v ++ ")"
  | .binaryOp l r op => display res l ++ " " ++ binopName op ++ " " ++ display res r
  | .unaryOp v op => unopName op ++ display res v
  | .ternaryOp l m r op =>
      display res l ++ " " ++ ternFirstName op ++ " " ++ display res m ++ " "
        ++ ternSecondName op ++ " " ++ display res r

/-- The `BuiltinFunc` argument loop of `ExprDisplay::fmt`: `", "` after
every argument but the last. -/
def displayArgs (res : Nat → String) : List FExpr → String
  | [] => ""
  | [a] => display res a
  | a :: rest => display res a ++ ", " ++ displayArgs res rest

end

/-- The value loop of the `Stmt::Print` arm of `CodeFormatter::write_stmt`
(src/formatter.rs): each value's display, with `" "` after every value but
the last (`if idx != values.len() - 1`). -/
def joinVals (res : Nat → String) : List FExpr → String
  | [] => ""
  | [v] => display res v
  | v :: rest => display res v ++ " " ++ joinVals res rest

/-- The `Stmt::Print` arm of `CodeFormatter::write_stmt`
(src/formatter.rs lines 286-318): the marker is `"@!"` when `wait`, else
`"@@"` when `newline`, else `"@"`; then the space-separated values; then
`writeln!(";")`. -/
def write_stmt_print (newline wait : Bool) (values : List FExpr) (res : Nat → String) :
    String :=
  (if wait then "@!" else if newline then "@@" else "@") ++ joinVals res values ++ ";\n"

/-- Join a list of strings with the separator between elements. -/
def sepJoin (sep : String) : List String → String
  | [] => ""
  | [a] => a
  | a :: rest => a ++ sep ++ sepJoin sep rest

/-- The output C9 claims, following the claim's words: marker `"@@"` when
the statement has no newline, `"@"` when it has a newline, `"@!"` when it
waits, then the space-separated values and the trailing `;`. -/
def claimPrintString (newline wait : Bool) (values : List FExpr) (res : Nat → String) :
    String :=
  (if wait then "@!" else if newline then "@" else "@@")
    ++ sepJoin " " (values.map (display res)) ++ ";\n"

/-- The amended description: marker `"@!"` when the statement waits, else
`"@@"` when it has a newline, else `"@"`, then the space-separated values
and the trailing `;`. -/
def amendedPrintString (newline wait : Bool) (values : List FExpr) (res : Nat → String) :
    String :=
  (if wait then "@!" else if newline then "@@" else "@")
    ++ sepJoin " " (values.map (display res)) ++ ";\n"

/-- The separator-after-all-but-last loop equals the separator join of the
displayed values. -/
theorem joinVals_eq_sepJoin (res : Nat → String) (l : List FExpr) :
    joinVals res l = sepJoin " " (l.map (display res)) := by
  induction l with
  | nil => rfl
  | cons a rest ih =>
    cases rest with
    | nil => rfl
    | cons b r => simp [joinVals, sepJoin, ih]

/-- A resolver for concrete inputs that use no symbols. -/
def res0 : Nat → String := fun _ => ""

end Kes.Fmt

section FormatterClaimTheorems

open Kes.Fmt

/-- C9 counterexample: a `Print` statement with neither newline nor wait
and the single value `1` is formatted as `"@1;\n"`, while the claim
predicts the `"@@"` marker (`"@@1;\n"`); the two differ. -/
theorem kes_c9_print_marker_counterexample :
    write_stmt_print false false [.number 1] res0 = "@1;\n" ∧
    claimPrintString false false [.number 1] res0 = "@@1;\n" ∧
    write_stmt_print false false [.number 1] res0 ≠
      claimPrintString false false [.number 1] res0 := by
  refine ⟨rfl, rfl, ?_⟩
  decide

/-- C9 amended: the formatter emits the marker `"@!"` when the statement
waits, else `"@@"` when it has a newline, else `"@"`, followed by the
value expressions separated by single spaces and a trailing `;` (and the
statement-terminating newline). -/
theorem kes_c9_print_marker_amended (newline wait : Bool) (values : List FExpr)
    (res : Nat → String) :
    write_stmt_print newline wait values res =
      amendedPrintString newline wait values res := by
  simp [write_stmt_print, amendedPrintString, joinVals_eq_sepJoin]

end FormatterClaimTheorems
